import Mathlib

/-!
Formal model of the Study Bud backend RAG pipeline and chat security layer,
translated from `backend/apps/resources/rag_pipeline.py` and
`backend/utils/security_guards.py`.  Text is modeled as `List Char`,
Python floats (timestamps, similarity scores) as rationals, and the
external collaborators (OpenAI embedding and completion calls, the
pgvector-backed database) as explicit function parameters or relations.
-/

namespace StudyBud

/-- Python ASCII whitespace characters: the set stripped by `str.strip()`
and matched by the regex class `\s` on the ASCII inputs modeled here. -/
def pySpaceChars : List Char := [' ', '\t', '\n', Char.ofNat 13, Char.ofNat 12, Char.ofNat 11]

/-- Decide whether a character is Python whitespace. -/
def isPySpace (c : Char) : Bool := pySpaceChars.contains c

/-- Drop leading and trailing Python whitespace, as `str.strip()` does. -/
def stripBoth (l : List Char) : List Char :=
  ((l.dropWhile isPySpace).reverse.dropWhile isPySpace).reverse

/-- Collapse every whitespace run to a single space; the flag records whether
the previous character was whitespace. -/
def collapseWSAux : Bool → List Char → List Char
  | _, [] => []
  | prevWS, c :: rest =>
    if isPySpace c then
      if prevWS then collapseWSAux true rest
      else ' ' :: collapseWSAux true rest
    else c :: collapseWSAux false rest

/-- Model of `re.sub(r'\s+', ' ', text.strip())`, the normalization used by
both `intelligent_chunk_text` and `generate_embedding`. -/
def normalizeWS (l : List Char) : List Char := collapseWSAux false (stripBoth l)

/-! ## RateLimiter (`backend/utils/security_guards.py`, `RateLimiter.is_allowed`)

The per-user stored value is the list of request timestamps; `time.time()`
instants are modeled as rationals.  The method prunes entries at or before
`window_start`, stores the pruned list, checks the count against the cap,
and appends the current time only when the request is allowed. -/

/-- Model of `RateLimiter.is_allowed` for one user: returns the decision and
the timestamp list stored for that user after the call. -/
def RateLimiter.is_allowed (stored : List ℚ) (current_time : ℚ)
    (max_requests : ℕ) (window_minutes : ℕ) : Bool × List ℚ :=
  let window_start : ℚ := current_time - (window_minutes : ℚ) * 60
  let pruned := stored.filter (fun t => window_start < t)
  if max_requests ≤ pruned.length then (false, pruned)
  else (true, pruned ++ [current_time])

/-- The stored timestamp list after a sequence of `is_allowed` calls for one
user at the given times, starting from no stored entries. -/
def RateLimiter.runState (times : List ℚ) (max_requests window_minutes : ℕ) : List ℚ :=
  times.foldl (fun l t => (RateLimiter.is_allowed l t max_requests window_minutes).2) []

/-- The list of decisions returned by a sequence of `is_allowed` calls for one
user at the given times, starting from no stored entries. -/
def RateLimiter.runDecisions (times : List ℚ) (max_requests window_minutes : ℕ) : List Bool :=
  (times.foldl (fun (acc : List Bool × List ℚ) t =>
    let r := RateLimiter.is_allowed acc.2 t max_requests window_minutes
    (acc.1 ++ [r.1], r.2)) ([], [])).1

/-! ## EmbeddingGenerator (`rag_pipeline.py`, `generate_embedding`)

The OpenAI client construction and the embeddings API call sit inside one
`try` block; the `backend` parameter models that whole attempt, returning
`none` when any part of it raises.  On `none` the source returns the
literal `[0.0] * 1536`. -/

/-- Model of the text cleaning in `generate_embedding`: strip and collapse
whitespace, then truncate to 8000 characters. -/
def cleanEmbeddingText (text : List Char) : List Char :=
  let cleaned := normalizeWS text
  if 8000 < cleaned.length then cleaned.take 8000 else cleaned

/-- Model of `EmbeddingGenerator.generate_embedding`: call the external
embedding backend on the cleaned text; if the call raises (modeled by
`none`), return the zero vector of dimension 1536. -/
def generate_embedding (backend : List Char → Option (List ℚ)) (text : List Char) : List ℚ :=
  match backend (cleanEmbeddingText text) with
  | some v => v
  | none => List.replicate 1536 0

/-! ## DocumentProcessor.intelligent_chunk_text (`rag_pipeline.py`)

The source first normalizes whitespace, then builds a paragraph list with a
three-strategy fallback (blank lines, single newlines over 50 characters,
sentence regrouping under 500 characters), then greedily packs paragraphs
into chunks of at most `chunk_size` characters with `overlap` characters of
carried-over context.  Per-chunk content analysis
(`_analyze_chunk_content`) issues an OpenAI call for topic extraction, so
it is modeled as an explicit `analyze` parameter; it only fills metadata
fields and does not influence which chunks exist. -/

/-- Model of `str.split('\n\n')`: split on non-overlapping double newlines,
scanning left to right. -/
def splitOnNN : List Char → List (List Char)
  | [] => [[]]
  | '\n' :: '\n' :: rest => [] :: splitOnNN rest
  | c :: rest =>
    match splitOnNN rest with
    | [] => [[c]]
    | h :: t => (c :: h) :: t

/-- Model of `str.split(sep)` for a one-character separator. -/
def splitOnChar (sep : Char) : List Char → List (List Char)
  | [] => [[]]
  | c :: rest =>
    if c == sep then [] :: splitOnChar sep rest
    else
      match splitOnChar sep rest with
      | [] => [[c]]
      | h :: t => (c :: h) :: t

/-- Characters in the regex class `[.!?]` used for sentence splitting. -/
def isSentSep (c : Char) : Bool := c == '.' || c == '!' || c == '?'

mutual

/-- Model of `re.split(r'[.!?]+', text)`: each maximal run of sentence
separators acts as one delimiter; `skipSentSeps` consumes the rest of a
separator run. -/
def splitSentRuns : List Char → List (List Char)
  | [] => [[]]
  | c :: rest =>
    if isSentSep c then
      [] :: skipSentSeps rest
    else
      match splitSentRuns rest with
      | [] => [[c]]
      | h :: t => (c :: h) :: t

/-- Consume the remainder of a separator run, then resume splitting. -/
def skipSentSeps : List Char → List (List Char)
  | [] => [[]]
  | c :: rest =>
    if isSentSep c then
      skipSentSeps rest
    else
      match splitSentRuns rest with
      | [] => [[c]]
      | h :: t => (c :: h) :: t

end

/-- Splitting strategy 1: blank-line separated paragraphs, stripped, empty
pieces removed. -/
def strat1 (text : List Char) : List (List Char) :=
  ((splitOnNN text).map stripBoth).filter (fun p => p ≠ [])

/-- Splitting strategy 2: single-newline pieces, stripped, kept only when
non-empty and longer than 50 characters. -/
def strat2 (text : List Char) : List (List Char) :=
  ((splitOnChar '\n' text).map stripBoth).filter (fun p => p ≠ [] && 50 < p.length)

/-- Sentences for splitting strategy 3: stripped pieces of the sentence
split, kept only when non-empty and longer than 20 characters. -/
def sentencesOf (text : List Char) : List (List Char) :=
  ((splitSentRuns text).map stripBoth).filter (fun s => s ≠ [] && 20 < s.length)

/-- The sentence-regrouping loop of strategy 3: accumulate sentences into a
running paragraph while it stays under 500 characters, emitting the stripped
paragraph on overflow and once more at the end when non-empty. -/
def groupSentencesAux : List (List Char) → List Char → List (List Char)
  | [], cur => if stripBoth cur ≠ [] then [stripBoth cur] else []
  | s :: rest, cur =>
    if cur.length + s.length < 500 then
      groupSentencesAux rest (cur ++ s ++ ('.' :: [' ']))
    else
      if stripBoth cur ≠ [] then
        stripBoth cur :: groupSentencesAux rest (s ++ ('.' :: [' ']))
      else
        groupSentencesAux rest (s ++ ('.' :: [' ']))

/-- The paragraph list produced by the layered splitting strategies of
`intelligent_chunk_text`: strategy 2 replaces strategy 1 when the latter
yields at most one piece, and strategy 3 appends its groups when the list
still has at most one piece. -/
def chunkParagraphs (text : List Char) : List (List Char) :=
  if (strat1 text).length ≤ 1 then
    if (strat2 text).length ≤ 1 then
      strat2 text ++ groupSentencesAux (sentencesOf text) []
    else strat2 text
  else strat1 text

/-- Words of a string in the sense of Python `str.split()`: maximal
non-whitespace runs, with the accumulator holding the current word
reversed. -/
def wordsOfAux : List Char → List Char → List (List Char)
  | [], acc => if acc = [] then [] else [acc.reverse]
  | c :: rest, acc =>
    if isPySpace c then
      if acc = [] then wordsOfAux rest []
      else acc.reverse :: wordsOfAux rest []
    else wordsOfAux rest (c :: acc)

/-- Model of `len(content.split())`, the word count stored on each chunk. -/
def wordCount (l : List Char) : Nat := (wordsOfAux l []).length

/-- Result of `_analyze_chunk_content`: the metadata dictionary attached to
each chunk (content type, topics, difficulty, learning objectives,
estimated study time). -/
structure ChunkInfo where
  ctype : String
  topics : List String
  difficulty : Nat
  learning_objectives : List String
  study_time : ℚ
deriving DecidableEq

/-- One chunk dictionary produced by `intelligent_chunk_text`. -/
structure ChunkRec where
  content : List Char
  chunk_index : Nat
  word_count : Nat
  chunk_type : String
  topics : List String
  difficulty_level : Nat
  learning_objectives : List String
  estimated_study_time : ℚ
deriving DecidableEq

/-- Build the chunk dictionary for a finished chunk from its content, its
index, and the content analysis. -/
def mkChunkRec (analyze : List Char → ChunkInfo) (content : List Char) (idx : Nat) : ChunkRec :=
  { content := content
    chunk_index := idx
    word_count := wordCount content
    chunk_type := (analyze content).ctype
    topics := (analyze content).topics
    difficulty_level := (analyze content).difficulty
    learning_objectives := (analyze content).learning_objectives
    estimated_study_time := (analyze content).study_time }

/-- Model of `current_chunk[-overlap:] if len(current_chunk) > overlap else
current_chunk` (a Python slice with `-0` keeps the whole string). -/
def overlapTail (overlap : Nat) (cur : List Char) : List Char :=
  if overlap ≠ 0 ∧ overlap < cur.length then cur.drop (cur.length - overlap) else cur

/-- The greedy packing loop of `intelligent_chunk_text`: close the running
chunk when the next paragraph would push it past `chunk_size`, seed the next
chunk with the overlap tail, and emit the final running chunk when
non-empty. -/
def packChunks (analyze : List Char → ChunkInfo) (chunk_size overlap : Nat) :
    List (List Char) → List Char → Nat → List ChunkRec
  | [], cur, idx => if cur ≠ [] then [mkChunkRec analyze cur idx] else []
  | p :: ps, cur, idx =>
    if chunk_size < cur.length + p.length ∧ cur ≠ [] then
      mkChunkRec analyze cur idx ::
        packChunks analyze chunk_size overlap ps (overlapTail overlap cur ++ ' ' :: p) (idx + 1)
    else
      packChunks analyze chunk_size overlap ps (if cur = [] then p else cur ++ ' ' :: p) idx

/-- Model of `DocumentProcessor.intelligent_chunk_text` (source defaults are
`chunk_size = 1000`, `overlap = 200`). -/
def intelligent_chunk_text (analyze : List Char → ChunkInfo) (text : List Char)
    (chunk_size overlap : Nat) : List ChunkRec :=
  packChunks analyze chunk_size overlap (chunkParagraphs (normalizeWS text)) [] 0

/-- A trivial stand-in content analysis, used only to evaluate the chunker at
concrete inputs; the chunker never inspects its output when deciding which
chunks exist. -/
def constAnalyze : List Char → ChunkInfo :=
  fun _ => { ctype := "text", topics := [], difficulty := 1, learning_objectives := [], study_time := 5 }

/-! ## RAGRetriever (`rag_pipeline.py`)

`retrieve_relevant_chunks` builds a Django queryset: filter by `course_id`,
optionally by `chunk_type__in`, annotate each row with
`similarity = 1 - CosineDistance(embedding, query_embedding)`, filter
`similarity__gte = similarity_threshold`, `order_by('-similarity')`, and
take the first `top_k` rows.  The similarity annotation is computed by the
pgvector extension in the database, so it is modeled as a function
parameter `sim`; `ORDER BY` with only `-similarity` leaves the relative
order of equal-similarity rows to the database, so the query is modeled as
a relation over admissible result lists. -/

/-- A stored `DocumentChunk` row, with the fields the retrieval queryset
reads. -/
structure DocumentChunk where
  id : Nat
  course_id : Nat
  chunk_index : Nat
  chunk_type : String
deriving DecidableEq

/-- The row filter of `retrieve_relevant_chunks`: course scope, optional
chunk-type scope, and the similarity threshold. -/
def chunkFilter (db : List DocumentChunk) (sim : DocumentChunk → ℚ) (course_id : Nat)
    (chunk_types : Option (List String)) (similarity_threshold : ℚ) : List DocumentChunk :=
  db.filter (fun c =>
    c.course_id == course_id &&
    (match chunk_types with
     | none => true
     | some ts => ts.contains c.chunk_type) &&
    decide (similarity_threshold ≤ sim c))

/-- Admissible results of `retrieve_relevant_chunks`: the first `top_k`
rows of some database ordering of the filtered rows that is non-increasing
in similarity. -/
def IsRetrieveResult (db : List DocumentChunk) (sim : DocumentChunk → ℚ) (course_id : Nat)
    (chunk_types : Option (List String)) (top_k : Nat) (similarity_threshold : ℚ)
    (result : List DocumentChunk) : Prop :=
  ∃ ordered : List DocumentChunk,
    List.Perm ordered (chunkFilter db sim course_id chunk_types similarity_threshold) ∧
    List.Pairwise (fun a b => sim b ≤ sim a) ordered ∧
    result = ordered.take top_k

/-- The chunk sub-fetch inside `retrieve_contextual_information`: the call
passes `top_k = 15` and leaves `chunk_types` and `similarity_threshold` at
their declared defaults, `None` and `0.7`. -/
def contextualChunkFetch (db : List DocumentChunk) (sim : DocumentChunk → ℚ)
    (course_id : Nat) (result : List DocumentChunk) : Prop :=
  IsRetrieveResult db sim course_id none 15 (mkRat 7 10) result

/-- A chunk is eligible for ranking in the contextual fetch when some
admissible result of that fetch contains it. -/
def EligibleChunk (db : List DocumentChunk) (sim : DocumentChunk → ℚ)
    (course_id : Nat) (c : DocumentChunk) : Prop :=
  ∃ result, contextualChunkFetch db sim course_id result ∧ c ∈ result

/-! ## RAGRetriever.retrieve_contextual_information (`rag_pipeline.py`)

All five sub-fetches sit inside one `try` block whose `except` clause
returns the empty dict; each sub-fetch is modeled as an `Except`
value (`error` when the underlying ORM call raises) and the empty dict as
`none`.  Only a missing `StudyPlanContext` degrades without raising,
because that query uses `.first()`; its value is therefore an `Option`
inside the bundle. -/

/-- The context bundle dictionary returned on success. -/
structure ContextBundle (σ κ ν π : Type) where
  study_context : Option σ
  course : κ
  relevant_chunks : List DocumentChunk
  knowledge_nodes : List ν
  existing_plans : List π
  query_text : String

/-- Model of `retrieve_contextual_information`: run the five sub-fetches in
source order inside one exception scope; any raise yields the empty dict
(`none`). -/
def retrieve_contextual_information {σ κ ν π : Type}
    (fetchStudyContext : Except Unit (Option σ))
    (fetchCourse : Except Unit κ)
    (fetchChunks : Except Unit (List DocumentChunk))
    (fetchKnowledgeNodes : Except Unit (List ν))
    (fetchExistingPlans : Except Unit (List π))
    (query_text : String) : Option (ContextBundle σ κ ν π) :=
  match fetchStudyContext, fetchCourse, fetchChunks, fetchKnowledgeNodes, fetchExistingPlans with
  | .ok sc, .ok course, .ok chunks, .ok nodes, .ok plans =>
    some { study_context := sc
           course := course
           relevant_chunks := chunks
           knowledge_nodes := nodes
           existing_plans := plans
           query_text := query_text }
  | _, _, _, _, _ => none

/-! ## StudyPlanGenerator._parse_ai_response (`rag_pipeline.py`)

The source extracts the first brace-delimited block from the LLM text,
parses it with `json.loads`, and repairs the parsed plan in place: every
topic or milestone dict with a falsy `id` gets
`f"topic_{i+1}_{hash(name) % 10000}"` (or the `milestone_` analogue), and
`completed` defaults to `False` when the key is absent. -/

/-- Parsed JSON values. -/
inductive JVal where
  | null : JVal
  | bool (b : Bool) : JVal
  | num (q : ℚ) : JVal
  | str (s : String) : JVal
  | arr (items : List JVal) : JVal
  | obj (fields : List (String × JVal)) : JVal

/-- Lookup in a JSON object, as `dict.get` on the unique-key dicts produced
by `json.loads`. -/
def jlookup : List (String × JVal) → String → Option JVal
  | [], _ => none
  | (k, v) :: rest, key => if k == key then some v else jlookup rest key

/-- Python truthiness of a JSON value. -/
def jtruthy : JVal → Bool
  | .null => false
  | .bool b => b
  | .num q => q != 0
  | .str s => s != ""
  | .arr items => !items.isEmpty
  | .obj fields => !fields.isEmpty

/-- Python truthiness of `dict.get`, which returns `None` on a missing
key. -/
def jtruthyO : Option JVal → Bool
  | none => false
  | some v => jtruthy v

/-- In-place dict assignment: replace the value at an existing key, else
append the new binding. -/
def jsetKV : List (String × JVal) → String → JVal → List (String × JVal)
  | [], key, v => [(key, v)]
  | (k, w) :: rest, key, v =>
    if k == key then (key, v) :: rest else (k, w) :: jsetKV rest key v

/-- The value whose Python `hash` feeds the synthesized id:
`topic.get('name', '')`.  The `pyHash` parameter below models the `hash`
builtin on the hashable JSON values reachable here (an unhashable `name`
value would raise an uncaught `TypeError` in the source and is outside
this model). -/
def planItemName (fields : List (String × JVal)) : JVal :=
  match jlookup fields "name" with
  | some v => v
  | none => .str ""

/-- The synthesized id `f"{prefix}_{i+1}_{hash(name) % 10000}"` (Python `%`
on a positive modulus is `Int.emod`, always non-negative here). -/
def synthesizedId (pyHash : JVal → Int) (idPrefix : String) (i : Nat)
    (fields : List (String × JVal)) : String :=
  idPrefix ++ "_" ++ toString (i + 1) ++ "_" ++ toString ((pyHash (planItemName fields)).emod 10000)

/-- One iteration of the repair loop of `_parse_ai_response` on the item at
position `i`: non-dict items pass through; a dict with a falsy `id` gets
the synthesized id, and `completed` is added as `False` when absent. -/
def fixPlanItem (pyHash : JVal → Int) (idPrefix : String) (i : Nat) : JVal → JVal
  | .obj fields =>
    let fields1 :=
      if jtruthyO (jlookup fields "id") then fields
      else jsetKV fields "id" (.str (synthesizedId pyHash idPrefix i fields))
    let fields2 :=
      if (jlookup fields1 "completed").isSome then fields1
      else jsetKV fields1 "completed" (.bool false)
    .obj fields2
  | v => v

/-- The repair loop over an `enumerate`d topics or milestones list. -/
def fixPlanList (pyHash : JVal → Int) (idPrefix : String) (items : List JVal) : List JVal :=
  items.enum.map (fun p => fixPlanItem pyHash idPrefix p.1 p.2)

/-- The repair of the `topics` entry of the parsed plan, applied when the
key is present and holds a list. -/
def fixTopicsStep (pyHash : JVal → Int) (fields : List (String × JVal)) :
    List (String × JVal) :=
  match jlookup fields "topics" with
  | some (.arr ts) => jsetKV fields "topics" (.arr (fixPlanList pyHash "topic" ts))
  | _ => fields

/-- The repair of the `milestones` entry of the parsed plan, applied when
the key is present and holds a list. -/
def fixMilestonesStep (pyHash : JVal → Int) (fields : List (String × JVal)) :
    List (String × JVal) :=
  match jlookup fields "milestones" with
  | some (.arr ms) => jsetKV fields "milestones" (.arr (fixPlanList pyHash "milestone" ms))
  | _ => fields

/-- The in-place repair of the parsed plan: the `topics` entry is repaired
first, then the `milestones` entry of the updated dict, exactly as the two
source loops run in sequence. -/
def fixParsedPlan (pyHash : JVal → Int) : JVal → JVal
  | .obj fields => .obj (fixMilestonesStep pyHash (fixTopicsStep pyHash fields))
  | v => v

/-- Model of `StudyPlanGenerator._parse_ai_response`: `extract` models the
greedy regex search for a brace-delimited block composed with `json.loads`;
`none` covers both the no-JSON case and a `JSONDecodeError`, where the
source returns the empty dict. -/
def parse_ai_response (pyHash : JVal → Int) (extract : String → Option JVal)
    (response_text : String) : JVal :=
  match extract response_text with
  | some parsed => fixParsedPlan pyHash parsed
  | none => .obj []

/-! ## ChatSecurityGuard (`backend/utils/security_guards.py`)

`validate_message` runs, in order: a format check, a 5000-character length
cap, a `re.search` over the `INJECTION_PATTERNS` regex catalogue, a
special-character-ratio check, and the suspicious/educational keyword
conjunction.  The regexes are transcribed into a small regular-expression
datatype covering exactly the constructs the catalogue uses (literals,
alternation, `\s` classes, negated character classes, `.`, optional and
repeated pieces, and one negative lookahead), matched by a fuelled
backtracking engine; fuel only bounds the recursion depth, which stays far
below the allotted budget for these patterns. -/

/-- Regular expressions, covering the constructs used by the source regex
catalogue. -/
inductive RE where
  | eps : RE
  | chr (c : Char) : RE
  | cls (neg : Bool) (cs : List Char) : RE
  | dot : RE
  | seq (a b : RE) : RE
  | alt (a b : RE) : RE
  | star (a : RE) : RE
  | nla (a : RE) : RE

/-- Backtracking matcher in continuation style: `reMatch fuel r s k` decides
whether some prefix of `s` matches `r` with the rest accepted by `k`.  The
`star` case only recurses on strictly shorter suffixes, and the fuel bounds
the recursion depth. -/
def reMatch : Nat → RE → List Char → (List Char → Bool) → Bool
  | 0, _, _, _ => false
  | _ + 1, .eps, s, k => k s
  | _ + 1, .chr c, s, k =>
    match s with
    | [] => false
    | d :: rest => c == d && k rest
  | _ + 1, .cls neg cs, s, k =>
    match s with
    | [] => false
    | d :: rest => (cs.contains d != neg) && k rest
  | _ + 1, .dot, s, k =>
    match s with
    | [] => false
    | d :: rest => d != '\n' && k rest
  | n + 1, .seq a b, s, k => reMatch n a s (fun rest => reMatch n b rest k)
  | n + 1, .alt a b, s, k => reMatch n a s k || reMatch n b s k
  | n + 1, .star a, s, k =>
    k s || reMatch n a s (fun rest => decide (rest.length < s.length) && reMatch n (.star a) rest k)
  | n + 1, .nla a, s, k => !reMatch n a s (fun _ => true) && k s

/-- Fuel budget for one match attempt; the recursion depth of the catalogue
patterns is at most twice the input length plus the pattern size. -/
def reFuel (s : List Char) : Nat := 4 * s.length + 400

/-- Whether `r` matches at the start of `s` (any prefix, any continuation). -/
def reMatchTop (r : RE) (s : List Char) : Bool := reMatch (reFuel s) r s (fun _ => true)

/-- Model of `re.search`: try the match at every position. -/
def reSearch (r : RE) : List Char → Bool
  | [] => reMatchTop r []
  | s@(_ :: rest) => reMatchTop r s || reSearch r rest

/-- Literal character sequence. -/
def lit : List Char → RE
  | [] => .eps
  | c :: rest => .seq (.chr c) (lit rest)

/-- Literal string. -/
def litS (s : String) : RE := lit s.toList

/-- Alternation of a non-empty pattern list. -/
def alts : List RE → RE
  | [] => .eps
  | [r] => r
  | r :: rest => .alt r (alts rest)

/-- The class `\s`. -/
def wsCls : RE := .cls false pySpaceChars

/-- The pattern `\s+`. -/
def ws1 : RE := .seq wsCls (.star wsCls)

/-- The pattern `\s*`. -/
def ws0 : RE := .star wsCls

/-- An optional piece, `(...)?`. -/
def opt (r : RE) : RE := .alt r .eps

/-- One or more repetitions, `(...)+`. -/
def rep1 (r : RE) : RE := .seq r (.star r)

/-- Concatenation of a pattern list. -/
def cat : List RE → RE
  | [] => .eps
  | [r] => r
  | r :: rest => .seq r (cat rest)

/-- A word with the optional plural `s`, as in `instructions?`. -/
def optS (s : String) : RE := .seq (litS s) (opt (.chr 's'))

/-- The backtick character. -/
def backtickChar : Char := Char.ofNat 96

/-- The `ChatSecurityGuard.INJECTION_PATTERNS` catalogue, transcribed
pattern by pattern in source order.  The flag marks patterns compiled with
`(?i)`, which are matched against the lowercased message. -/
def INJECTION_PATTERNS : List (Bool × RE) := [
  (true, cat [alts [litS "ignore", litS "forget", litS "disregard"], ws1,
              alts [litS "previous", litS "above", litS "all"], ws1,
              alts [optS "instruction", optS "prompt", optS "rule"]]),
  (true, cat [alts [litS "system", litS "admin", litS "root", litS "developer"], ws1,
              alts [litS "prompt", litS "instruction", litS "command", litS "override"]]),
  (true, cat [litS "act", ws1, litS "as", ws1,
              alts [litS "admin", litS "root", litS "system", litS "developer", litS "hacker"]]),
  (true, cat [alts [litS "pretend", litS "act", litS "behave"], ws1,
              alts [litS "like", litS "as"], ws1,
              alts [cat [litS "you", ws1, litS "are"], cat [litS "to", ws1, litS "be"]], ws1,
              alts [litS "not", cat [litS "no", ws1, litS "longer"]]]),
  (true, cat [litS "you", ws1, litS "are", ws1,
              alts [litS "now", litS "actually", litS "really"], ws1,
              alts [litS "a", litS "an", litS "the"], ws1,
              .nla (alts [litS "study", litS "learning", litS "education", litS "academic"])]),
  (true, cat [alts [litS "change", litS "switch", litS "modify"], ws1,
              alts [litS "your", litS "the"], ws1,
              alts [litS "role", litS "persona", litS "character", litS "identity"]]),
  (true, cat [litS "new", ws1,
              alts [litS "role", litS "persona", litS "character", litS "identity",
                    optS "instruction"]]),
  (true, cat [alts [litS "show", litS "display", litS "reveal", litS "expose", litS "dump",
                    litS "list"], ws1,
              alts [litS "all", litS "your", litS "the"], ws1,
              alts [litS "data", litS "information", litS "content", litS "files",
                    litS "database"]]),
  (true, cat [alts [litS "what", litS "tell"], ws1, alts [litS "are", litS "me"], ws1,
              alts [litS "all", litS "your"], ws1,
              alts [optS "instruction", optS "prompt", optS "rule", optS "guideline"]]),
  (true, cat [alts [litS "repeat", litS "show", litS "display"], ws1,
              alts [litS "your", litS "the"], ws1,
              alts [litS "system", litS "initial", litS "original"], ws1,
              alts [litS "prompt", optS "instruction"]]),
  (true, cat [alts [litS "show", litS "reveal", litS "dump"], ws1,
              opt (cat [litS "me", ws1]), opt (cat [litS "all", ws1]),
              opt (cat [litS "user", ws1]), litS "data"]),
  (true, cat [alts [litS "what", litS "show"], ws1, opt (cat [litS "are", ws1]),
              opt (cat [litS "your", ws1]), opt (cat [litS "original", ws1]),
              optS "instruction"]),
  (true, cat [alts [litS "execute", litS "run", litS "eval", litS "exec"], ws1,
              alts [litS "code", litS "command", litS "script", litS "function"]]),
  (true, cat [alts [litS "access", litS "connect", litS "login"], ws1,
              alts [litS "to", litS "the"], ws1,
              alts [litS "database", litS "system", litS "server", litS "admin"]]),
  (true, cat [alts [litS "bypass", litS "override", litS "disable",
                    cat [litS "turn", ws1, litS "off"]], ws1,
              alts [litS "security", litS "safety", litS "filter", litS "guard"]]),
  (true, alts [litS "jailbreak", cat [litS "break", ws1, litS "free"], litS "escape",
               litS "hack", litS "exploit"]),
  (true, cat [litS "do", ws1, litS "anything", ws1, litS "now", ws0,
              opt (alts [litS "dan", litS "mode"])]),
  (true, cat [alts [litS "hypothetically", litS "theoretically", litS "imagine",
                    litS "pretend"], ws1, litS "you", ws1,
              alts [litS "can", litS "could", cat [litS "are", ws1, litS "able"]]]),
  (true, cat [litS "pretend", ws1, litS "you", ws1, litS "are", ws1,
              alts [litS "not", cat [litS "no", ws1, litS "longer"]]]),
  (true, cat [alts [litS "union", litS "select", litS "insert", litS "update", litS "delete",
                    litS "drop", litS "create", litS "alter"], ws1,
              alts [litS "select", litS "from", litS "where", litS "table"]]),
  (true, cat [alts [litS "or", litS "and"], ws1, .chr '1', ws0, .chr '=', ws0, .chr '1']),
  (true, cat [.chr ';', .star .dot, .chr '-', .chr '-', .star (.chr '-')]),
  (false, cat [litS "<script", .star (.cls true ['>']), .chr '>', .star .dot,
               litS "</script>"]),
  (false, litS "javascript:"),
  (false, cat [litS "on", alts [litS "load", litS "click", litS "error", litS "focus",
                                litS "blur"], ws0, .chr '=']),
  (true, cat [alts [litS "&&", litS "||", litS "|", litS ";"], ws0,
              alts [litS "ls", litS "cat", litS "pwd", litS "whoami", litS "id", litS "ps",
                    litS "netstat", litS "curl", litS "wget"]]),
  (true, cat [.chr '$', .chr '(', rep1 (.cls true [')']), .chr ')']),
  (true, cat [.chr backtickChar, rep1 (.cls true [backtickChar]), .chr backtickChar])]

/-- Lowercasing, as Python `str.lower()` on the ASCII messages modeled
here. -/
def lowerStr (l : List Char) : List Char := l.map Char.toLower

/-- The injection-pattern loop of `validate_message`: `re.search` of each
catalogue pattern against the message. -/
def checkInjection (message : List Char) : Bool :=
  INJECTION_PATTERNS.any (fun p => reSearch p.2 (if p.1 then lowerStr message else message))

/-- The `SUSPICIOUS_KEYWORDS` list of `ChatSecurityGuard`. -/
def SUSPICIOUS_KEYWORDS : List String :=
  ["password", "secret", "token", "api_key", "private_key", "credential",
   "hack", "exploit", "vulnerability", "backdoor", "malware", "virus",
   "phishing", "social_engineering", "privilege_escalation",
   "sql_injection", "xss", "csrf", "rce", "lfi", "rfi"]

/-- The `EDUCATIONAL_KEYWORDS` list of `ChatSecurityGuard`. -/
def EDUCATIONAL_KEYWORDS : List String :=
  ["study", "learn", "education", "academic", "course", "assignment",
   "quiz", "exam", "homework", "research", "topic", "subject",
   "mathematics", "science", "history", "literature", "programming",
   "algorithm", "data_structure", "computer_science", "physics",
   "chemistry", "biology", "engineering", "statistics"]

/-- Whether the first list is a prefix of the second. -/
def isPrefixOfL : List Char → List Char → Bool
  | [], _ => true
  | _ :: _, [] => false
  | a :: as, b :: bs => a == b && isPrefixOfL as bs

/-- Substring containment, as the Python `in` operator on strings. -/
def containsSub (needle : List Char) : List Char → Bool
  | [] => isPrefixOfL needle []
  | hay@(_ :: rest) => isPrefixOfL needle hay || containsSub needle rest

/-- Count of suspicious keywords occurring in the lowercased message. -/
def suspiciousCount (message : List Char) : Nat :=
  (SUSPICIOUS_KEYWORDS.filter (fun kw => containsSub kw.toList (lowerStr message))).length

/-- Count of educational keywords occurring in the lowercased message. -/
def educationalCount (message : List Char) : Nat :=
  (EDUCATIONAL_KEYWORDS.filter (fun kw => containsSub kw.toList (lowerStr message))).length

/-- Whether a character matches the regex class `[\w\s]`, on the ASCII
inputs modeled here. -/
def isWordChar (c : Char) : Bool := c.isAlpha || c.isDigit || c == '_'

/-- Model of `len(re.findall(r'[^\w\s]', message))`. -/
def specialCharCount (message : List Char) : Nat :=
  (message.filter (fun c => !(isWordChar c || isPySpace c))).length

/-- The fixed rejection messages of `validate_message`, abbreviated to
constructors. -/
inductive RejectReason where
  | invalidFormat : RejectReason
  | tooLong : RejectReason
  | injection : RejectReason
  | specialChars : RejectReason
  | suspicious : RejectReason
deriving DecidableEq

/-- Model of `ChatSecurityGuard.validate_message` on string inputs.  The
float comparison `count / len > 0.3` is reproduced exactly over the
naturals as `3 * len < 10 * count`, which agrees with the double-precision
computation for every length up to the already-enforced 5000-character
cap. -/
def validate_message (message : List Char) : Bool × Option RejectReason :=
  if message = [] then (false, some .invalidFormat)
  else if 5000 < message.length then (false, some .tooLong)
  else if checkInjection message then (false, some .injection)
  else if 3 * message.length < 10 * specialCharCount message then (false, some .specialChars)
  else if 0 < suspiciousCount message ∧ educationalCount message = 0 then
    (false, some .suspicious)
  else (true, none)

/-- Example parsed plan whose topic and milestone both lack an `id`. -/
def examplePlanFields : List (String × JVal) :=
  [("topics", .arr [.obj [("name", .str "Binary Trees and Traversal")]]),
   ("milestones", .arr [.obj [("name", .str "Master Binary Tree Operations")]])]

/-- Example extraction function: the LLM text parses to `examplePlanFields`. -/
def exampleExtract : String → Option JVal := fun _ => some (.obj examplePlanFields)

/-- Example stand-in for the Python `hash` builtin. -/
def exampleHash : JVal → Int := fun _ => 7

/-! ## Helper lemmas -/

theorem mem_chunkFilter {db : List DocumentChunk} {sim : DocumentChunk → ℚ} {course_id : Nat}
    {chunk_types : Option (List String)} {thr : ℚ} {c : DocumentChunk}
    (h : c ∈ chunkFilter db sim course_id chunk_types thr) :
    c.course_id = course_id ∧ thr ≤ sim c := by
  have hp := List.of_mem_filter h
  simp only [Bool.and_eq_true, beq_iff_eq, decide_eq_true_eq] at hp
  exact ⟨hp.1.1, hp.2⟩

theorem mem_of_retrieve {db : List DocumentChunk} {sim : DocumentChunk → ℚ} {course_id : Nat}
    {chunk_types : Option (List String)} {top_k : Nat} {thr : ℚ} {res : List DocumentChunk}
    {c : DocumentChunk} (h : IsRetrieveResult db sim course_id chunk_types top_k thr res)
    (hc : c ∈ res) : c ∈ chunkFilter db sim course_id chunk_types thr := by
  obtain ⟨ordered, hperm, _, heq⟩ := h
  subst heq
  exact hperm.subset ((List.take_sublist _ _).subset hc)

/-! ## Claim C1: course scoping of retrieval -/

/-- C1: for every index containing chunks from multiple courses and every
query, `retrieve_relevant_chunks` with `course_id = A` returns only chunks
whose `course_id` equals `A`, for every admissible database ordering; no
chunk of another course ever appears in the result. -/
theorem retrieve_chunks_scoped_to_course
    (db : List DocumentChunk) (sim : DocumentChunk → ℚ) (course_id : Nat)
    (chunk_types : Option (List String)) (top_k : Nat) (thr : ℚ) (res : List DocumentChunk)
    (h : IsRetrieveResult db sim course_id chunk_types top_k thr res) :
    ∀ c ∈ res, c.course_id = course_id :=
  fun _ hc => (mem_chunkFilter (mem_of_retrieve h hc)).1

/-- Witness for C1: a two-course index in which the course-1 query admits
exactly the course-1 chunk, and that result is scoped to course 1. -/
theorem retrieve_chunks_scoped_to_course_witness :
    IsRetrieveResult [⟨1, 1, 0, "text"⟩, ⟨2, 2, 0, "text"⟩] (fun _ => 1) 1 none 10 (mkRat 7 10)
      [⟨1, 1, 0, "text"⟩] ∧
    ∀ c ∈ [(⟨1, 1, 0, "text"⟩ : DocumentChunk)], c.course_id = 1 := by
  have hres : IsRetrieveResult [⟨1, 1, 0, "text"⟩, ⟨2, 2, 0, "text"⟩] (fun _ => 1) 1 none 10
      (mkRat 7 10) [⟨1, 1, 0, "text"⟩] :=
    ⟨[⟨1, 1, 0, "text"⟩], by decide, by decide, by decide⟩
  exact ⟨hres, retrieve_chunks_scoped_to_course _ _ _ _ _ _ _ hres⟩

/-! ## Claim C2: embedding failure safety -/

/-- C2: whenever the embedding backend call raises (modeled by `none`,
covering a backend that always raises), `generate_embedding` returns the
explicit zero vector of dimension 1536; it never returns null and never
propagates the exception. -/
theorem generate_embedding_failure_returns_zero_vector
    (backend : List Char → Option (List ℚ)) (text : List Char)
    (h : backend (cleanEmbeddingText text) = none) :
    generate_embedding backend text = List.replicate 1536 0 ∧
      (generate_embedding backend text).length = 1536 := by
  have hz : generate_embedding backend text = List.replicate 1536 0 := by
    unfold generate_embedding
    rw [h]
  exact ⟨hz, by rw [hz, List.length_replicate]⟩

/-- Witness for C2: an always-raising backend on a concrete text. -/
theorem generate_embedding_failure_returns_zero_vector_witness :
    (fun _ : List Char => (none : Option (List ℚ))) (cleanEmbeddingText "hello".toList) = none ∧
    (generate_embedding (fun _ => none) "hello".toList = List.replicate 1536 0 ∧
      (generate_embedding (fun _ => none) "hello".toList).length = 1536) :=
  ⟨rfl, generate_embedding_failure_returns_zero_vector (fun _ => none) "hello".toList rfl⟩

/-! ## Claim C6: the contextual chunk fetch and its similarity floor -/

/-- Counterexample for C6: a course-scoped chunk with similarity 1/2 is not
eligible for ranking in the contextual fetch — no admissible result of
`retrieve_relevant_chunks(query_embedding, course_id, top_k=15)` contains
it, because the fetch leaves `similarity_threshold` at its default 0.7
rather than applying no floor. -/
theorem contextual_fetch_counterexample :
    ¬ EligibleChunk [⟨1, 1, 0, "text"⟩] (fun _ => mkRat 1 2) 1 ⟨1, 1, 0, "text"⟩ := by
  rintro ⟨res, ⟨ordered, hperm, _, heq⟩, hmem⟩
  have hfil : chunkFilter [⟨1, 1, 0, "text"⟩] (fun _ => mkRat 1 2) 1 none (mkRat 7 10) = [] := by decide
  rw [hfil] at hperm
  have hnil : ordered = [] := hperm.eq_nil
  subst hnil
  subst heq
  simp at hmem

/-- C6 (amended): the chunk fetch of `retrieve_contextual_information` uses
`top_k = 15` together with the default similarity floor 0.7: every returned
chunk is course-scoped and has similarity at least 0.7, and at most 15
chunks are returned. -/
theorem contextual_fetch_topk_and_floor
    (db : List DocumentChunk) (sim : DocumentChunk → ℚ) (course_id : Nat)
    (res : List DocumentChunk) (h : contextualChunkFetch db sim course_id res) :
    res.length ≤ 15 ∧ ∀ c ∈ res, c.course_id = course_id ∧ (mkRat 7 10 : ℚ) ≤ sim c := by
  constructor
  · obtain ⟨ordered, _, _, heq⟩ := h
    subst heq
    exact List.length_take_le _ _
  · exact fun _ hc => mem_chunkFilter (mem_of_retrieve h hc)

/-- Witness for C6: a concrete contextual fetch whose one chunk clears the
floor. -/
theorem contextual_fetch_topk_and_floor_witness :
    contextualChunkFetch [⟨1, 1, 0, "text"⟩] (fun _ => mkRat 9 10) 1 [⟨1, 1, 0, "text"⟩] ∧
    ([(⟨1, 1, 0, "text"⟩ : DocumentChunk)].length ≤ 15 ∧
      ∀ c ∈ [(⟨1, 1, 0, "text"⟩ : DocumentChunk)], c.course_id = 1 ∧
        (mkRat 7 10 : ℚ) ≤ (fun _ => (mkRat 9 10 : ℚ)) c) := by
  have hfetch : contextualChunkFetch [⟨1, 1, 0, "text"⟩] (fun _ => mkRat 9 10) 1
      [⟨1, 1, 0, "text"⟩] :=
    ⟨[⟨1, 1, 0, "text"⟩], by decide, by decide, by decide⟩
  exact ⟨hfetch, contextual_fetch_topk_and_floor _ _ _ _ hfetch⟩

/-! ## Claim C7: ordering of equal-similarity results -/

/-- Counterexample for C7: with two equal-similarity chunks of the same
course, the query admits both orderings of the result; in particular the
ordering that lists the higher `chunk_index` first is admissible, so equal
scores are not ordered by ascending `chunk_index`, and the result ordering
is not reproducible. -/
theorem retrieve_tie_order_counterexample :
    IsRetrieveResult [⟨1, 1, 0, "text"⟩, ⟨2, 1, 1, "text"⟩] (fun _ => 1) 1 none 10 (mkRat 7 10)
      [⟨2, 1, 1, "text"⟩, ⟨1, 1, 0, "text"⟩] ∧
    IsRetrieveResult [⟨1, 1, 0, "text"⟩, ⟨2, 1, 1, "text"⟩] (fun _ => 1) 1 none 10 (mkRat 7 10)
      [⟨1, 1, 0, "text"⟩, ⟨2, 1, 1, "text"⟩] ∧
    (⟨1, 1, 0, "text"⟩ : DocumentChunk).chunk_index <
      (⟨2, 1, 1, "text"⟩ : DocumentChunk).chunk_index ∧
    ([⟨2, 1, 1, "text"⟩, ⟨1, 1, 0, "text"⟩] : List DocumentChunk) ≠
      [⟨1, 1, 0, "text"⟩, ⟨2, 1, 1, "text"⟩] :=
  ⟨⟨[⟨2, 1, 1, "text"⟩, ⟨1, 1, 0, "text"⟩], by decide, by decide, by decide⟩,
   ⟨[⟨1, 1, 0, "text"⟩, ⟨2, 1, 1, "text"⟩], by decide, by decide, by decide⟩,
   by decide, by decide⟩

/-- C7 (amended): every admissible result of `retrieve_relevant_chunks` is
ordered by non-increasing similarity; the source specifies no secondary
sort key, so the relative order of equal-similarity chunks is left to the
database. -/
theorem retrieve_sorted_by_similarity
    (db : List DocumentChunk) (sim : DocumentChunk → ℚ) (course_id : Nat)
    (chunk_types : Option (List String)) (top_k : Nat) (thr : ℚ) (res : List DocumentChunk)
    (h : IsRetrieveResult db sim course_id chunk_types top_k thr res) :
    List.Pairwise (fun a b => sim b ≤ sim a) res := by
  obtain ⟨ordered, _, hsort, heq⟩ := h
  subst heq
  exact List.Pairwise.sublist (List.take_sublist _ _) hsort

/-- Witness for C7 (amended): a concrete two-chunk fetch with distinct
scores, sorted by descending similarity. -/
theorem retrieve_sorted_by_similarity_witness :
    IsRetrieveResult [⟨1, 1, 0, "text"⟩, ⟨2, 1, 1, "text"⟩] (fun c => if c.id = 1 then 1 else mkRat 9 10)
      1 none 10 (mkRat 7 10) [⟨1, 1, 0, "text"⟩, ⟨2, 1, 1, "text"⟩] ∧
    List.Pairwise
      (fun a b => (fun c : DocumentChunk => if c.id = 1 then (1 : ℚ) else mkRat 9 10) b ≤
        (fun c : DocumentChunk => if c.id = 1 then (1 : ℚ) else mkRat 9 10) a)
      [⟨1, 1, 0, "text"⟩, ⟨2, 1, 1, "text"⟩] := by
  have hres : IsRetrieveResult [⟨1, 1, 0, "text"⟩, ⟨2, 1, 1, "text"⟩]
      (fun c => if c.id = 1 then 1 else mkRat 9 10) 1 none 10 (mkRat 7 10)
      [⟨1, 1, 0, "text"⟩, ⟨2, 1, 1, "text"⟩] :=
    ⟨[⟨1, 1, 0, "text"⟩, ⟨2, 1, 1, "text"⟩], by decide, by decide, by decide⟩
  exact ⟨hres, retrieve_sorted_by_similarity _ _ _ _ _ _ _ hres⟩

/-! ## Claim C8: failure behavior of the contextual bundle -/

/-- Counterexample for C8: when only the course lookup raises (the other
four sub-fetches succeed with non-empty data), the whole bundle degrades to
the empty dict — `relevant_chunks`, `knowledge_nodes` and `existing_plans`
are not populated, contradicting per-field degradation. -/
theorem contextual_info_counterexample :
    @retrieve_contextual_information Nat Nat Nat Nat
      (.ok (some 1)) (.error ()) (.ok [⟨1, 1, 0, "text"⟩]) (.ok [2]) (.ok [3]) "query"
      = none := rfl

/-- C8 (amended): a failure in any sub-fetch aborts the entire bundle, which
degrades to the empty dict; only when every sub-fetch succeeds is a bundle
returned, and then each field carries its sub-fetch value. -/
theorem contextual_info_all_or_nothing {σ κ ν π : Type}
    (f1 : Except Unit (Option σ)) (f2 : Except Unit κ)
    (f3 : Except Unit (List DocumentChunk)) (f4 : Except Unit (List ν))
    (f5 : Except Unit (List π)) (q : String) :
    (retrieve_contextual_information f1 f2 f3 f4 f5 q = none ↔
      ¬(f1.isOk = true ∧ f2.isOk = true ∧ f3.isOk = true ∧ f4.isOk = true ∧ f5.isOk = true)) ∧
    ∀ (sc : Option σ) (co : κ) (ch : List DocumentChunk) (kn : List ν) (pl : List π),
      retrieve_contextual_information (Except.ok sc) (Except.ok co) (Except.ok ch)
        (Except.ok kn) (Except.ok pl) q =
        some { study_context := sc, course := co, relevant_chunks := ch,
               knowledge_nodes := kn, existing_plans := pl, query_text := q } := by
  constructor
  · cases f1 <;> cases f2 <;> cases f3 <;> cases f4 <;> cases f5 <;>
      simp [retrieve_contextual_information, Except.isOk, Except.toBool]
  · intro sc co ch kn pl
    rfl

/-! ## Claims C4 and C10: rate limiter -/

theorem is_allowed_length_le (l : List ℚ) (t : ℚ) (m w : ℕ) (hl : l.length ≤ m) :
    ((RateLimiter.is_allowed l t m w).2).length ≤ m := by
  simp only [RateLimiter.is_allowed]
  split
  next h => exact le_trans (List.length_filter_le _ _) hl
  next h =>
    rw [List.length_append, List.length_singleton]
    have hlt := Nat.lt_of_not_le h
    omega

theorem runState_length_le (ts : List ℚ) (m w : ℕ) :
    (RateLimiter.runState ts m w).length ≤ m := by
  suffices h : ∀ l : List ℚ, l.length ≤ m →
      (ts.foldl (fun l t => (RateLimiter.is_allowed l t m w).2) l).length ≤ m by
    exact h [] (by simp)
  induction ts with
  | nil => exact fun l hl => hl
  | cons t rest ih =>
    intro l hl
    exact ih _ (is_allowed_length_le l t m w hl)

theorem is_allowed_window (l : List ℚ) (t : ℚ) (m w : ℕ) (hw : 0 < w) :
    ∀ x ∈ (RateLimiter.is_allowed l t m w).2, t - (w : ℚ) * 60 < x := by
  have hpos : (0 : ℚ) < (w : ℚ) * 60 := by
    have : (0 : ℚ) < (w : ℚ) := by exact_mod_cast hw
    linarith
  intro x hx
  simp only [RateLimiter.is_allowed] at hx
  split at hx
  · exact of_decide_eq_true (List.mem_filter.mp hx).2
  · rcases List.mem_append.mp hx with hmem | hmem
    · exact of_decide_eq_true (List.mem_filter.mp hmem).2
    · have hxt : x = t := List.mem_singleton.mp hmem
      subst hxt
      linarith

/-- C10: after every call to `is_allowed` in a call sequence with fixed
`max_requests` and positive `window_minutes`, the stored timestamp list of
the user has length at most `max_requests`, and every stored timestamp
lies inside the window ending at the moment of the call. -/
theorem rate_limiter_state_invariant (ts : List ℚ) (t : ℚ) (m w : ℕ) (hw : 0 < w) :
    (RateLimiter.runState (ts ++ [t]) m w).length ≤ m ∧
    ∀ x ∈ RateLimiter.runState (ts ++ [t]) m w, t - (w : ℚ) * 60 < x := by
  have hrun : RateLimiter.runState (ts ++ [t]) m w =
      (RateLimiter.is_allowed (RateLimiter.runState ts m w) t m w).2 := by
    simp [RateLimiter.runState, List.foldl_append]
  rw [hrun]
  exact ⟨is_allowed_length_le _ _ _ _ (runState_length_le ts m w),
        is_allowed_window _ _ _ _ hw⟩

/-- Witness for C10: a three-call sequence under the cap. -/
theorem rate_limiter_state_invariant_witness :
    0 < 60 ∧
    ((RateLimiter.runState ([0, 1] ++ [2]) 3 60).length ≤ 3 ∧
      ∀ x ∈ RateLimiter.runState ([0, 1] ++ [2]) 3 60, (2 : ℚ) - ((60 : ℕ) : ℚ) * 60 < x) :=
  ⟨by decide, rate_limiter_state_invariant [0, 1] 2 3 60 (by decide)⟩

/-- C4: with `max_requests = 3` and `window_minutes = 60`, three calls
inside one window are allowed, the fourth inside the same window is
denied, and a later call past the window is allowed again — the
prune-check-append order of `is_allowed` produces exactly this decision
sequence. -/
theorem rate_limiter_boundary (t1 t2 t3 t4 t5 : ℚ)
    (h12 : t1 ≤ t2) (h23 : t2 ≤ t3) (h34 : t3 ≤ t4)
    (hwin : t4 - 60 * 60 < t1) (hpast : t3 + 60 * 60 ≤ t5) :
    RateLimiter.runDecisions [t1, t2, t3, t4, t5] 3 60 = [true, true, true, false, true] := by
  have c21 : t2 - (60 : ℚ) * 60 < t1 := by linarith
  have c31 : t3 - (60 : ℚ) * 60 < t1 := by linarith
  have c32 : t3 - (60 : ℚ) * 60 < t2 := by linarith
  have c41 : t4 - (60 : ℚ) * 60 < t1 := by linarith
  have c42 : t4 - (60 : ℚ) * 60 < t2 := by linarith
  have c43 : t4 - (60 : ℚ) * 60 < t3 := by linarith
  have n51 : ¬(t5 - (60 : ℚ) * 60 < t1) := by linarith
  have n52 : ¬(t5 - (60 : ℚ) * 60 < t2) := by linarith
  have n53 : ¬(t5 - (60 : ℚ) * 60 < t3) := by linarith
  simp [RateLimiter.runDecisions, RateLimiter.is_allowed, List.filter,
        c21, c31, c32, c41, c42, c43, n51, n52, n53]

/-- Witness for C4: the concrete call times 0, 1, 2, 3 and 7200 seconds. -/
theorem rate_limiter_boundary_witness :
    ((0 : ℚ) ≤ 1 ∧ (1 : ℚ) ≤ 2 ∧ (2 : ℚ) ≤ 3 ∧
      (3 : ℚ) - 60 * 60 < 0 ∧ (2 : ℚ) + 60 * 60 ≤ 7200) ∧
    RateLimiter.runDecisions [0, 1, 2, 3, 7200] 3 60 = [true, true, true, false, true] :=
  ⟨⟨by norm_num, by norm_num, by norm_num, by norm_num, by norm_num⟩,
   rate_limiter_boundary 0 1 2 3 7200 (by norm_num) (by norm_num) (by norm_num)
     (by norm_num) (by norm_num)⟩

/-! ## Claim C3: the validate_message keyword conjunction -/

/-- Counterexample for C3: the message "Explain a buffer overflow exploit
in C for my security course" carries educational context (the allowlist
keyword "course") alongside the suspicious keyword "exploit", yet
`validate_message` rejects it: the word "exploit" also matches the
jailbreak entry of `INJECTION_PATTERNS`, which fires before the keyword
conjunction is ever consulted. -/
theorem validate_message_counterexample :
    validate_message "Explain a buffer overflow exploit in C for my security course".toList
      = (false, some RejectReason.injection) ∧
    0 < suspiciousCount "Explain a buffer overflow exploit in C for my security course".toList ∧
    0 < educationalCount "Explain a buffer overflow exploit in C for my security course".toList :=
  ⟨by decide, by decide, by decide⟩

/-- C3 (amended): the suspicious/educational conjunction governs only
messages that pass the earlier checks: for every non-empty message within
the length cap that matches no injection pattern and stays under the
special-character ratio, acceptance holds exactly when the message does not
combine a suspicious keyword with zero educational keywords.  A message
containing "exploit" never reaches this conjunction — it is rejected by the
injection-pattern check — so "give me an exploit for admin login" is
rejected via the injection path, not the keyword path. -/
theorem validate_message_guard_conjunction :
    validate_message "give me an exploit for admin login".toList
      = (false, some RejectReason.injection) ∧
    ∀ m : List Char, m ≠ [] → m.length ≤ 5000 → checkInjection m = false →
      10 * specialCharCount m ≤ 3 * m.length →
      ((validate_message m).1 = true ↔
        ¬(0 < suspiciousCount m ∧ educationalCount m = 0)) := by
  constructor
  · decide
  · intro m h1 h2 h3 h4
    simp only [validate_message]
    rw [if_neg h1, if_neg (by omega : ¬5000 < m.length), if_neg (by simp [h3]),
       if_neg (by omega : ¬3 * m.length < 10 * specialCharCount m)]
    by_cases hc : 0 < suspiciousCount m ∧ educationalCount m = 0
    · rw [if_pos hc]
      simp [hc]
    · rw [if_neg hc]
      simp [hc]

/-- Witness for C3 (amended): a message carrying the suspicious keyword
"password" together with educational keywords, passing every earlier check
and accepted by the conjunction. -/
theorem validate_message_guard_conjunction_witness :
    ("please summarize the course homework about the password policy".toList ≠
        ([] : List Char)) ∧
    "please summarize the course homework about the password policy".toList.length ≤ 5000 ∧
    checkInjection
      "please summarize the course homework about the password policy".toList = false ∧
    10 * specialCharCount
        "please summarize the course homework about the password policy".toList ≤
      3 * "please summarize the course homework about the password policy".toList.length ∧
    ((validate_message
        "please summarize the course homework about the password policy".toList).1 = true ↔
      ¬(0 < suspiciousCount
            "please summarize the course homework about the password policy".toList ∧
        educationalCount
          "please summarize the course homework about the password policy".toList = 0)) :=
  ⟨by decide, by decide, by decide, by decide,
   validate_message_guard_conjunction.2 _ (by decide) (by decide) (by decide) (by decide)⟩

/-! ## Claim C5: non-emptiness of the chunking output -/

theorem mem_dropWhile_of_neg {α : Type} {p : α → Bool} {c : α} :
    ∀ {l : List α}, c ∈ l → p c = false → c ∈ l.dropWhile p := by
  intro l hc hp
  induction l with
  | nil => cases hc
  | cons a t ih =>
    rw [List.dropWhile_cons]
    by_cases ha : p a = true
    · rw [if_pos ha]
      rcases List.mem_cons.mp hc with h | h
      · subst h
        rw [hp] at ha
        cases ha
      · exact ih h
    · rw [if_neg ha]
      exact hc

theorem exists_not_of_dropWhile_ne_nil {α : Type} {p : α → Bool} :
    ∀ {l : List α}, l.dropWhile p ≠ [] → ∃ c ∈ l.dropWhile p, p c = false := by
  intro l
  induction l with
  | nil => intro h; simp at h
  | cons a t ih =>
    intro h
    rw [List.dropWhile_cons] at h ⊢
    by_cases ha : p a = true
    · rw [if_pos ha] at h ⊢
      exact ih h
    · rw [if_neg ha] at h ⊢
      exact ⟨a, List.mem_cons_self a t, by simpa using ha⟩

theorem stripBoth_ne_nil {l : List Char} (h : ∃ c ∈ l, isPySpace c = false) :
    stripBoth l ≠ [] := by
  obtain ⟨c, hc, hcp⟩ := h
  unfold stripBoth
  intro hnil
  rw [List.reverse_eq_nil_iff, List.dropWhile_eq_nil_iff] at hnil
  have hc1 : c ∈ List.dropWhile isPySpace l := mem_dropWhile_of_neg hc hcp
  have hc2 := hnil c (List.mem_reverse.mpr hc1)
  rw [hcp] at hc2
  cases hc2

theorem mem_of_mem_stripBoth {l : List Char} {c : Char} (h : c ∈ stripBoth l) : c ∈ l := by
  unfold stripBoth at h
  have h1 := List.mem_reverse.mp h
  have h2 := (List.dropWhile_sublist _).subset h1
  have h3 := List.mem_reverse.mp h2
  exact (List.dropWhile_sublist _).subset h3

theorem mem_stripBoth_not_space {l : List Char} (h : stripBoth l ≠ []) :
    ∃ c ∈ stripBoth l, isPySpace c = false := by
  have hne : (l.dropWhile isPySpace).reverse.dropWhile isPySpace ≠ [] := by
    intro hh
    apply h
    unfold stripBoth
    rw [hh]
    rfl
  obtain ⟨c, hc, hcp⟩ := exists_not_of_dropWhile_ne_nil hne
  exact ⟨c, List.mem_reverse.mpr hc, hcp⟩

theorem packChunks_ne_nil_of_cur (analyze : List Char → ChunkInfo) (cs ov : Nat) :
    ∀ (ps : List (List Char)) (cur : List Char) (idx : Nat), cur ≠ [] →
      packChunks analyze cs ov ps cur idx ≠ [] := by
  intro ps
  induction ps with
  | nil =>
    intro cur idx h
    simp [packChunks, h]
  | cons p rest ih =>
    intro cur idx h
    simp only [packChunks]
    by_cases hcond : cs < cur.length + p.length ∧ cur ≠ []
    · rw [if_pos hcond]
      exact List.cons_ne_nil _ _
    · rw [if_neg hcond]
      apply ih
      rw [if_neg h]
      simp

theorem packChunks_ne_nil_of_head (analyze : List Char → ChunkInfo) (cs ov : Nat)
    (p : List Char) (ps : List (List Char)) (cur : List Char) (idx : Nat) (hp : p ≠ []) :
    packChunks analyze cs ov (p :: ps) cur idx ≠ [] := by
  simp only [packChunks]
  by_cases hcond : cs < cur.length + p.length ∧ cur ≠ []
  · rw [if_pos hcond]
    exact List.cons_ne_nil _ _
  · rw [if_neg hcond]
    apply packChunks_ne_nil_of_cur
    by_cases hcur : cur = []
    · rw [if_pos hcur]
      exact hp
    · rw [if_neg hcur]
      simp

theorem groupAux_mem_ne_nil :
    ∀ (sents : List (List Char)) (cur : List Char) (g : List Char),
      g ∈ groupSentencesAux sents cur → g ≠ [] := by
  intro sents
  induction sents with
  | nil =>
    intro cur g hg
    simp only [groupSentencesAux] at hg
    split at hg
    · next hcur =>
      rw [List.mem_singleton] at hg
      subst hg
      exact hcur
    · cases hg
  | cons s rest ih =>
    intro cur g hg
    simp only [groupSentencesAux] at hg
    split at hg
    · exact ih _ g hg
    · split at hg
      · next hcur =>
        rcases List.mem_cons.mp hg with h | h
        · subst h
          exact hcur
        · exact ih _ g h
      · exact ih _ g hg

theorem groupAux_ne_nil :
    ∀ (sents : List (List Char)) (cur : List Char),
      ((∃ s ∈ sents, ∃ c ∈ s, isPySpace c = false) ∨ stripBoth cur ≠ []) →
      groupSentencesAux sents cur ≠ [] := by
  intro sents
  induction sents with
  | nil =>
    intro cur h
    rcases h with ⟨s, hs, _⟩ | h
    · cases hs
    · simp only [groupSentencesAux]
      rw [if_pos h]
      exact List.cons_ne_nil _ _
  | cons s rest ih =>
    intro cur h
    simp only [groupSentencesAux]
    by_cases hlen : cur.length + s.length < 500
    · rw [if_pos hlen]
      apply ih
      rcases h with ⟨s2, hs2, c, hc, hcp⟩ | hcur
      · rcases List.mem_cons.mp hs2 with h2 | h2
        · subst h2
          exact Or.inr (stripBoth_ne_nil ⟨c, by simp [hc], hcp⟩)
        · exact Or.inl ⟨s2, h2, c, hc, hcp⟩
      · obtain ⟨c, hc, hcp⟩ := mem_stripBoth_not_space hcur
        exact Or.inr (stripBoth_ne_nil ⟨c, by simp [mem_of_mem_stripBoth hc], hcp⟩)
    · rw [if_neg hlen]
      by_cases hcur : stripBoth cur ≠ []
      · rw [if_pos hcur]
        exact List.cons_ne_nil _ _
      · rw [if_neg hcur]
        apply ih
        rcases h with ⟨s2, hs2, c, hc, hcp⟩ | hc2
        · rcases List.mem_cons.mp hs2 with h2 | h2
          · subst h2
            exact Or.inr (stripBoth_ne_nil ⟨c, by simp [hc], hcp⟩)
          · exact Or.inl ⟨s2, h2, c, hc, hcp⟩
        · exact absurd hc2 hcur

theorem strat1_mem_ne_nil {text p : List Char} (h : p ∈ strat1 text) : p ≠ [] := by
  have hp := List.of_mem_filter h
  simpa using hp

theorem strat2_mem_ne_nil {text p : List Char} (h : p ∈ strat2 text) : p ≠ [] := by
  have hp := List.of_mem_filter h
  simp only [Bool.and_eq_true, decide_eq_true_eq] at hp
  exact hp.1

theorem sentencesOf_mem {text s : List Char} (h : s ∈ sentencesOf text) :
    s ≠ [] ∧ ∃ x, s = stripBoth x := by
  unfold sentencesOf at h
  have hfil := List.of_mem_filter h
  have hmap := (List.mem_filter.mp h).1
  simp only [Bool.and_eq_true, decide_eq_true_eq] at hfil
  obtain ⟨x, _, hx⟩ := List.mem_map.mp hmap
  exact ⟨hfil.1, x, hx.symm⟩

theorem chunkParagraphs_mem_ne_nil {text : List Char} :
    ∀ p ∈ chunkParagraphs text, p ≠ [] := by
  intro p h
  unfold chunkParagraphs at h
  split at h
  · split at h
    · rcases List.mem_append.mp h with h2 | h2
      · exact strat2_mem_ne_nil h2
      · exact groupAux_mem_ne_nil _ _ p h2
    · exact strat2_mem_ne_nil h
  · exact strat1_mem_ne_nil h

theorem chunkParagraphs_ne_nil {text : List Char}
    (h : strat2 text ≠ [] ∨ sentencesOf text ≠ []) : chunkParagraphs text ≠ [] := by
  unfold chunkParagraphs
  split
  · split
    · rcases h with hs | hs
      · exact fun hnil => hs (List.append_eq_nil.mp hnil).1
      · intro hnil
        apply groupAux_ne_nil (sentencesOf text) [] _ (List.append_eq_nil.mp hnil).2
        left
        obtain ⟨s, hsmem⟩ := List.exists_mem_of_ne_nil _ hs
        obtain ⟨hsne, x, hsx⟩ := sentencesOf_mem hsmem
        obtain ⟨c, hc, hcp⟩ := mem_stripBoth_not_space (hsx ▸ hsne)
        exact ⟨s, hsmem, c, hsx ▸ hc, hcp⟩
    · next h2 =>
      intro hnil
      rw [hnil] at h2
      simp at h2
  · next h1 =>
    intro hnil
    rw [hnil] at h1
    simp at h1

/-- Counterexample for C5: the non-empty input "hello" produces zero
chunks — its normalized text is at most 50 characters, so the newline
strategies keep nothing, its only sentence is at most 20 characters, so
the sentence strategy keeps nothing, and the packing loop over an empty
paragraph list emits no chunk. -/
theorem intelligent_chunk_text_counterexample :
    "hello".toList ≠ ([] : List Char) ∧
    intelligent_chunk_text constAnalyze "hello".toList 1000 200 = [] :=
  ⟨by decide, by decide⟩

/-- C5 (amended): `intelligent_chunk_text` returns at least one chunk for
every input in which at least one splitting unit survives the minimum
length floors — a stripped single-newline piece longer than 50 characters
(strategy 2) or a stripped sentence longer than 20 characters
(strategy 3).  Inputs whose units all fall below the floors can yield
zero chunks. -/
theorem intelligent_chunk_text_ne_nil (analyze : List Char → ChunkInfo) (text : List Char)
    (chunk_size overlap : Nat)
    (h : strat2 (normalizeWS text) ≠ [] ∨ sentencesOf (normalizeWS text) ≠ []) :
    intelligent_chunk_text analyze text chunk_size overlap ≠ [] := by
  unfold intelligent_chunk_text
  rcases hpar : chunkParagraphs (normalizeWS text) with _ | ⟨p, ps⟩
  · exact absurd hpar (chunkParagraphs_ne_nil h)
  · have hp : p ≠ [] := chunkParagraphs_mem_ne_nil p (by rw [hpar]; exact List.mem_cons_self _ _)
    exact packChunks_ne_nil_of_head analyze chunk_size overlap p ps [] 0 hp

/-- Witness for C5 (amended): a 77-character single-sentence text clears
the strategy-2 floor and yields a chunk. -/
theorem intelligent_chunk_text_ne_nil_witness :
    (strat2 (normalizeWS
        "this is a chunk of text that is certainly longer than fifty characters total".toList)
          ≠ [] ∨
      sentencesOf (normalizeWS
        "this is a chunk of text that is certainly longer than fifty characters total".toList)
          ≠ []) ∧
    intelligent_chunk_text constAnalyze
      "this is a chunk of text that is certainly longer than fifty characters total".toList
      1000 200 ≠ [] :=
  ⟨Or.inl (by decide),
   intelligent_chunk_text_ne_nil constAnalyze _ 1000 200 (Or.inl (by decide))⟩

/-! ## Claim C9: id synthesis in the parsed plan -/

theorem jlookup_jsetKV_self (l : List (String × JVal)) (k : String) (v : JVal) :
    jlookup (jsetKV l k v) k = some v := by
  induction l with
  | nil => simp [jsetKV, jlookup]
  | cons kv rest ih =>
    obtain ⟨k2, v2⟩ := kv
    simp only [jsetKV]
    by_cases h : k2 = k
    · rw [if_pos (beq_iff_eq.mpr h)]
      simp [jlookup]
    · rw [if_neg (by simp [h])]
      simp only [jlookup]
      rw [if_neg (by simp [h])]
      exact ih

theorem jlookup_jsetKV_ne (l : List (String × JVal)) (k k2 : String) (v : JVal)
    (h : k2 ≠ k) : jlookup (jsetKV l k v) k2 = jlookup l k2 := by
  induction l with
  | nil =>
    simp only [jsetKV, jlookup]
    rw [if_neg (by simp [Ne.symm h])]
  | cons kv rest ih =>
    obtain ⟨k3, v3⟩ := kv
    simp only [jsetKV]
    by_cases h3 : k3 = k
    · subst h3
      rw [if_pos (by simp)]
      simp only [jlookup]
      rw [if_neg (by simp [Ne.symm h]), if_neg (by simp [Ne.symm h])]
    · rw [if_neg (by simp [h3])]
      simp only [jlookup]
      by_cases h32 : k3 = k2
      · rw [if_pos (by simp [h32]), if_pos (by simp [h32])]
      · rw [if_neg (by simp [h32]), if_neg (by simp [h32])]
        exact ih

theorem fixPlanList_get (pyHash : JVal → Int) (pre : String) (items : List JVal) (i : Nat) :
    (fixPlanList pyHash pre items).get? i = (items.get? i).map (fixPlanItem pyHash pre i) := by
  unfold fixPlanList
  rw [List.get?_map, List.get?_enum]
  cases items.get? i <;> simp

theorem fixPlanItem_of_falsy_id (pyHash : JVal → Int) (pre : String) (i : Nat)
    (tf : List (String × JVal)) (hid : jtruthyO (jlookup tf "id") = false) :
    ∃ rf, fixPlanItem pyHash pre i (.obj tf) = .obj rf ∧
      jlookup rf "id" = some (.str (synthesizedId pyHash pre i tf)) ∧
      (jlookup tf "completed" = none → jlookup rf "completed" = some (.bool false)) := by
  have hcond : ¬(jtruthyO (jlookup tf "id") = true) := by simp [hid]
  simp only [fixPlanItem]
  rw [if_neg hcond]
  by_cases hcomp :
      (jlookup (jsetKV tf "id" (.str (synthesizedId pyHash pre i tf))) "completed").isSome
  · rw [if_pos hcomp]
    refine ⟨_, rfl, jlookup_jsetKV_self _ _ _, fun habs => ?_⟩
    rw [jlookup_jsetKV_ne _ _ _ _ (by decide), habs] at hcomp
    cases hcomp
  · rw [if_neg hcomp]
    refine ⟨_, rfl, ?_, fun _ => jlookup_jsetKV_self _ _ _⟩
    rw [jlookup_jsetKV_ne _ _ _ _ (by decide)]
    exact jlookup_jsetKV_self _ _ _

theorem jlookup_fixTopicsStep_ne (pyHash : JVal → Int) (fields : List (String × JVal))
    (k : String) (hk : k ≠ "topics") :
    jlookup (fixTopicsStep pyHash fields) k = jlookup fields k := by
  unfold fixTopicsStep
  rcases jlookup fields "topics" with _ | tv
  · rfl
  · rcases tv with _ | b | q | str | items | fs
    · rfl
    · rfl
    · rfl
    · rfl
    · exact jlookup_jsetKV_ne _ _ _ _ hk
    · rfl

theorem jlookup_fixMilestonesStep_ne (pyHash : JVal → Int) (fields : List (String × JVal))
    (k : String) (hk : k ≠ "milestones") :
    jlookup (fixMilestonesStep pyHash fields) k = jlookup fields k := by
  unfold fixMilestonesStep
  rcases jlookup fields "milestones" with _ | mv
  · rfl
  · rcases mv with _ | b | q | str | items | fs
    · rfl
    · rfl
    · rfl
    · rfl
    · exact jlookup_jsetKV_ne _ _ _ _ hk
    · rfl

theorem fixParsedPlan_topics (pyHash : JVal → Int) (fields : List (String × JVal))
    (ts : List JVal) (hts : jlookup fields "topics" = some (.arr ts)) :
    ∃ rfields, fixParsedPlan pyHash (.obj fields) = .obj rfields ∧
      jlookup rfields "topics" = some (.arr (fixPlanList pyHash "topic" ts)) := by
  refine ⟨_, rfl, ?_⟩
  rw [jlookup_fixMilestonesStep_ne _ _ _ (by decide)]
  unfold fixTopicsStep
  rw [hts]
  exact jlookup_jsetKV_self _ _ _

theorem fixParsedPlan_milestones (pyHash : JVal → Int) (fields : List (String × JVal))
    (ms : List JVal) (hms : jlookup fields "milestones" = some (.arr ms)) :
    ∃ rfields, fixParsedPlan pyHash (.obj fields) = .obj rfields ∧
      jlookup rfields "milestones" = some (.arr (fixPlanList pyHash "milestone" ms)) := by
  refine ⟨_, rfl, ?_⟩
  have h1 : jlookup (fixTopicsStep pyHash fields) "milestones" = some (.arr ms) := by
    rw [jlookup_fixTopicsStep_ne _ _ _ (by decide)]
    exact hms
  unfold fixMilestonesStep
  rw [h1]
  exact jlookup_jsetKV_self _ _ _

theorem string_append_ne_empty (a b : String) (ha : a ≠ "") : a ++ b ≠ "" := by
  intro h
  apply ha
  have hd := congrArg String.data h
  rw [String.data_append] at hd
  exact String.ext (List.append_eq_nil.mp (by simpa using hd)).1

/-- C9: for every LLM response whose extracted JSON parses to a plan object,
every topic (resp. milestone) dict at position `i` with a falsy `id` is
assigned, in the parsed result, the non-empty id
`topic_{i+1}_{hash(name) % 10000}` (resp. the `milestone_` analogue), and
`completed` is set to `False` whenever the key was absent. -/
theorem parse_ai_response_id_synthesis
    (pyHash : JVal → Int) (extract : String → Option JVal) (resp : String)
    (fields : List (String × JVal)) (hx : extract resp = some (.obj fields)) :
    (∀ ts : List JVal, jlookup fields "topics" = some (.arr ts) →
      ∀ (i : Nat) (tf : List (String × JVal)), ts.get? i = some (.obj tf) →
        jtruthyO (jlookup tf "id") = false →
        ∃ rfields rts rtf,
          parse_ai_response pyHash extract resp = .obj rfields ∧
          jlookup rfields "topics" = some (.arr rts) ∧
          rts.get? i = some (.obj rtf) ∧
          jlookup rtf "id" = some (.str (synthesizedId pyHash "topic" i tf)) ∧
          synthesizedId pyHash "topic" i tf ≠ "" ∧
          (jlookup tf "completed" = none → jlookup rtf "completed" = some (.bool false))) ∧
    (∀ ms : List JVal, jlookup fields "milestones" = some (.arr ms) →
      ∀ (i : Nat) (mf : List (String × JVal)), ms.get? i = some (.obj mf) →
        jtruthyO (jlookup mf "id") = false →
        ∃ rfields rms rmf,
          parse_ai_response pyHash extract resp = .obj rfields ∧
          jlookup rfields "milestones" = some (.arr rms) ∧
          rms.get? i = some (.obj rmf) ∧
          jlookup rmf "id" = some (.str (synthesizedId pyHash "milestone" i mf)) ∧
          synthesizedId pyHash "milestone" i mf ≠ "" ∧
          (jlookup mf "completed" = none → jlookup rmf "completed" = some (.bool false))) := by
  have hres : parse_ai_response pyHash extract resp = fixParsedPlan pyHash (.obj fields) := by
    simp [parse_ai_response, hx]
  constructor
  · intro ts hts i tf hti hid
    obtain ⟨rfields, hplan, htop⟩ := fixParsedPlan_topics pyHash fields ts hts
    obtain ⟨rtf, hitem, hid2, hcomp2⟩ := fixPlanItem_of_falsy_id pyHash "topic" i tf hid
    refine ⟨rfields, _, rtf, hres.trans hplan, htop, ?_, hid2, ?_, hcomp2⟩
    · rw [fixPlanList_get, hti]
      simp [hitem]
    · exact string_append_ne_empty _ _
        (string_append_ne_empty _ _ (string_append_ne_empty _ _ (by decide)))
  · intro ms hms i mf hmi hid
    obtain ⟨rfields, hplan, hmil⟩ := fixParsedPlan_milestones pyHash fields ms hms
    obtain ⟨rmf, hitem, hid2, hcomp2⟩ := fixPlanItem_of_falsy_id pyHash "milestone" i mf hid
    refine ⟨rfields, _, rmf, hres.trans hplan, hmil, ?_, hid2, ?_, hcomp2⟩
    · rw [fixPlanList_get, hmi]
      simp [hitem]
    · exact string_append_ne_empty _ _
        (string_append_ne_empty _ _ (string_append_ne_empty _ _ (by decide)))

/-- Witness for C9: a concrete plan whose first topic lacks an `id`. -/
theorem parse_ai_response_id_synthesis_witness :
    exampleExtract "llm response" = some (.obj examplePlanFields) ∧
    jlookup examplePlanFields "topics" =
      some (.arr [.obj [("name", .str "Binary Trees and Traversal")]]) ∧
    ([JVal.obj [("name", JVal.str "Binary Trees and Traversal")]].get? 0 =
      some (.obj [("name", .str "Binary Trees and Traversal")])) ∧
    jtruthyO (jlookup [("name", JVal.str "Binary Trees and Traversal")] "id") = false ∧
    (∃ rfields rts rtf,
      parse_ai_response exampleHash exampleExtract "llm response" = .obj rfields ∧
      jlookup rfields "topics" = some (.arr rts) ∧
      rts.get? 0 = some (.obj rtf) ∧
      jlookup rtf "id" = some (.str (synthesizedId exampleHash "topic" 0
        [("name", JVal.str "Binary Trees and Traversal")])) ∧
      synthesizedId exampleHash "topic" 0 [("name", JVal.str "Binary Trees and Traversal")] ≠ "" ∧
      (jlookup [("name", JVal.str "Binary Trees and Traversal")] "completed" = none →
        jlookup rtf "completed" = some (.bool false))) :=
  ⟨rfl, rfl, rfl, rfl,
   (parse_ai_response_id_synthesis exampleHash exampleExtract "llm response"
      examplePlanFields rfl).1 _ rfl 0 _ rfl rfl⟩

end StudyBud
